import Mathlib

/-!
Shallow embedding of the StaticMCP SSE bridge core
(crates/staticmcp_sse_lib/src/lib.rs): JSON data model, the Rust string
primitives the code relies on, the pure path-resolution functions
`uri_to_path` / `tool_to_path`, and the `MCPBridge` request handlers.
-/

namespace StaticMCP

/-- Model of `serde_json::Value`.  JSON numbers are modelled as integers;
`toString` on the integer models serde's canonical textual rendering of a
number.  Objects carry their field list (serde's `Map` keeps keys unique;
where that matters a `Nodup` hypothesis is stated explicitly). -/
inductive Json where
  | null : Json
  | bool (b : Bool) : Json
  | num (n : Int) : Json
  | str (s : String) : Json
  | arr (elems : List Json) : Json
  | obj (fields : List (String × Json)) : Json
deriving Repr

/-- Model of `serde_json::Value::get` with a string key: field lookup on
objects (first matching key), `none` on every other variant. -/
def Json.getField : Json → String → Option Json
  | .obj fields, key => fields.lookup key
  | _, _ => none

/-- Model of `Value::as_str`. -/
def Json.asStr : Json → Option String
  | .str s => some s
  | _ => none

/-- Model of `Value::as_object` (the field list of an object). -/
def Json.asObj : Json → Option (List (String × Json))
  | .obj fields => some fields
  | _ => none

/-! ### Rust `str` primitives, modelled on `List Char`

UTF-8 byte order coincides with code-point order, so Rust's byte-wise
string comparison agrees with Lean's character-wise `String` order. -/

/-- If `pre` is a prefix of `s`, return the rest of `s`
(model of `str::strip_prefix`). -/
def dropPre : List Char → List Char → Option (List Char)
  | [], s => some s
  | _ :: _, [] => none
  | p :: ps, c :: cs => if p = c then dropPre ps cs else none

/-- First occurrence of `sep` in `s`: `some (before, after)` where
`s = before ++ sep ++ after` and `before` is shortest possible. -/
def findSplit (sep : List Char) : List Char → Option (List Char × List Char)
  | [] =>
    match dropPre sep [] with
    | some rest => some ([], rest)
    | none => none
  | c :: cs =>
    match dropPre sep (c :: cs) with
    | some rest => some ([], rest)
    | none =>
      match findSplit sep cs with
      | some (pre, post) => some (c :: pre, post)
      | none => none

/-- Fuel-driven splitting on every occurrence of `sep`
(model of Rust `str::split` for a non-empty separator). -/
def splitFuel (sep : List Char) : Nat → List Char → List (List Char)
  | 0, s => [s]
  | fuel + 1, s =>
    match findSplit sep s with
    | none => [s]
    | some (pre, post) => pre :: splitFuel sep fuel post

/-- Model of Rust `str::split` collected into a `Vec`. -/
def rustSplit (s sep : String) : List String :=
  (splitFuel sep.data (s.data.length + 1) s.data).map (⟨·⟩)

/-- Model of Rust `str::contains` with a substring pattern. -/
def rustContains (s pat : String) : Bool :=
  (findSplit pat.data s.data).isSome

/-- Model of Rust `str::starts_with`. -/
def rustStartsWith (s pre : String) : Bool :=
  (dropPre pre.data s.data).isSome

/-- Model of Rust `str::strip_prefix`. -/
def rustStripPre (s pre : String) : Option String :=
  (dropPre pre.data s.data).map (⟨·⟩)

/-- Model of Rust `str::ends_with`. -/
def rustEndsWith (s suf : String) : Bool :=
  (dropPre suf.data.reverse s.data.reverse).isSome

/-! ### `MCPBridge::uri_to_path` -/

/-- Embedding of `MCPBridge::uri_to_path` (lib.rs lines 161-176).  The
method ignores `&self`, so it is modelled as a plain function. -/
def uri_to_path (uri : String) : String :=
  if rustStartsWith uri "file://" then
    "resources/" ++ ((rustStripPre uri "file://").getD "") ++ ".json"
  else if rustContains uri "://" then
    let parts := rustSplit uri "://"
    if parts.length = 2 then
      "resources/" ++ parts.getD 1 "" ++ ".json"
    else
      uri ++ ".json"
  else if rustEndsWith uri ".json" then
    uri
  else
    uri ++ ".json"

example : uri_to_path "file:///a/b" = "resources//a/b.json" := by decide
example : uri_to_path "https://x.com/y" = "resources/x.com/y.json" := by decide
example : uri_to_path "plain" = "plain.json" := by decide
example : uri_to_path "already.json" = "already.json" := by decide
example : uri_to_path "a://b://c" = "a://b://c.json" := by decide
example : uri_to_path "x://" = "resources/.json" := by decide

/-! ### JSON serialization (model of `serde_json::to_string` /
`to_string_pretty`) -/

/-- Lower-case hexadecimal digit. -/
def hexDigit (n : Nat) : Char :=
  if n < 10 then Char.ofNat (48 + n) else Char.ofNat (97 + (n - 10))

/-- JSON string escaping as serde emits it. -/
def escapeChar (c : Char) : List Char :=
  if c = '"' then ['\\', '"']
  else if c = '\\' then ['\\', '\\']
  else if c = '\n' then ['\\', 'n']
  else if c = '\r' then ['\\', 'r']
  else if c = '\t' then ['\\', 't']
  else if c.toNat = 8 then ['\\', 'b']
  else if c.toNat = 12 then ['\\', 'f']
  else if c.toNat < 32 then
    ['\\', 'u', '0', '0', hexDigit (c.toNat / 16), hexDigit (c.toNat % 16)]
  else [c]

/-- A JSON string literal with quotes and escapes. -/
def quoteJson (s : String) : String :=
  ⟨'"' :: s.data.foldr (fun c acc => escapeChar c ++ acc) ['"']⟩

mutual

/-- Model of `serde_json::to_string` on a `Value` (serialization of a
`Value` never fails, so the source's `.unwrap_or_default()` is
invisible here). -/
def Json.compact : Json → String
  | .null => "null"
  | .bool b => if b then "true" else "false"
  | .num n => toString n
  | .str s => quoteJson s
  | .arr xs => "[" ++ String.intercalate "," (Json.compactList xs) ++ "]"
  | .obj fs => "\x7b" ++ String.intercalate "," (Json.compactFields fs) ++ "\x7d"

/-- Compact serializations of array elements. -/
def Json.compactList : List Json → List String
  | [] => []
  | x :: xs => Json.compact x :: Json.compactList xs

/-- Compact `"key":value` serializations of object fields. -/
def Json.compactFields : List (String × Json) → List String
  | [] => []
  | (k, v) :: fs => (quoteJson k ++ ":" ++ Json.compact v) :: Json.compactFields fs

end

/-- `2 * n` spaces. -/
def indentStr (n : Nat) : String := ⟨List.replicate (2 * n) ' '⟩

mutual

/-- Pretty serialization (2-space indent) at a given indent level. -/
def Json.prettyAux : Nat → Json → String
  | _, .null => "null"
  | _, .bool b => if b then "true" else "false"
  | _, .num n => toString n
  | _, .str s => quoteJson s
  | _, .arr [] => "[]"
  | indent, .arr (x :: xs) =>
    "[\n" ++ String.intercalate ",\n" (Json.prettyList (indent + 1) (x :: xs)) ++
      "\n" ++ indentStr indent ++ "]"
  | _, .obj [] => "\x7b\x7d"
  | indent, .obj (f :: fs) =>
    "\x7b\n" ++ String.intercalate ",\n" (Json.prettyFields (indent + 1) (f :: fs)) ++
      "\n" ++ indentStr indent ++ "\x7d"

/-- Pretty serializations of array elements, each on its own line. -/
def Json.prettyList : Nat → List Json → List String
  | _, [] => []
  | indent, x :: xs =>
    (indentStr indent ++ Json.prettyAux indent x) :: Json.prettyList indent xs

/-- Pretty `"key": value` serializations of object fields. -/
def Json.prettyFields : Nat → List (String × Json) → List String
  | _, [] => []
  | indent, (k, v) :: fs =>
    (indentStr indent ++ quoteJson k ++ ": " ++ Json.prettyAux indent v) ::
      Json.prettyFields indent fs

end

/-- Model of `serde_json::to_string_pretty` on a `Value`. -/
def Json.pretty (j : Json) : String := Json.prettyAux 0 j

example : Json.compact (.obj [("a", .arr [.num 1, .null])]) = "\x7b\"a\":[1,null]\x7d" := by decide

/-! ### Argument stringification, UTF-8 and Base64
(models of `Value` match arms, `str::as_bytes` and the `base64` crate's
`STANDARD` engine used by `tool_to_path`). -/

/-- The per-value stringification shared by the 1-, 2- and ≥3-argument arms
of `tool_to_path`: strings verbatim, numbers and booleans via their
canonical text, anything else via compact JSON. -/
def stringifyValue : Json → String
  | .str s => s
  | .num n => toString n
  | .bool b => if b then "true" else "false"
  | v => v.compact

/-- UTF-8 encoding of one character (byte values as `Nat`). -/
def utf8EncodeChar (c : Char) : List Nat :=
  let n := c.toNat
  if n < 128 then [n]
  else if n < 2048 then [192 + n / 64, 128 + n % 64]
  else if n < 65536 then [224 + n / 4096, 128 + n / 64 % 64, 128 + n % 64]
  else [240 + n / 262144, 128 + n / 4096 % 64, 128 + n / 64 % 64, 128 + n % 64]

/-- Model of `str::as_bytes`: the UTF-8 bytes of a string. -/
def utf8Bytes (s : String) : List Nat :=
  s.data.foldr (fun c acc => utf8EncodeChar c ++ acc) []

/-- The standard Base64 alphabet. -/
def b64Alphabet : List Char :=
  "ABCDEFGHIJKLMNOPQRSTUVWXYZabcdefghijklmnopqrstuvwxyz0123456789+/".data

def b64Char (n : Nat) : Char := b64Alphabet.getD n 'A'

/-- Standard Base64 with `=` padding (model of
`base64::engine::general_purpose::STANDARD.encode`). -/
def base64Encode : List Nat → List Char
  | [] => []
  | [b1] => [b64Char (b1 / 4), b64Char (b1 % 4 * 16), '=', '=']
  | [b1, b2] =>
    [b64Char (b1 / 4), b64Char (b1 % 4 * 16 + b2 / 16), b64Char (b2 % 16 * 4), '=']
  | b1 :: b2 :: b3 :: rest =>
    b64Char (b1 / 4) :: b64Char (b1 % 4 * 16 + b2 / 16) ::
      b64Char (b2 % 16 * 4 + b3 / 64) :: b64Char (b3 % 64) :: base64Encode rest

example : String.mk (base64Encode (utf8Bytes "Man")) = "TWFu" := by decide
example : String.mk (base64Encode (utf8Bytes "Ma")) = "TWE=" := by decide

/-- The `.replace(['/', '+', '='], "_")` step making the encoding
path-safe. -/
def b64PathSafe (c : Char) : Char :=
  if c = '/' || c = '+' || c = '=' then '_' else c

/-! ### `MCPBridge::tool_to_path` -/

/-- Lexicographic comparison of character lists by code point.  UTF-8 byte
order coincides with code-point order, so this is exactly Rust's `Ord` on
`String` (byte-wise comparison). -/
def charListLe : List Char → List Char → Bool
  | [], _ => true
  | _ :: _, [] => false
  | a :: as, b :: bs =>
    if a.toNat < b.toNat then true
    else if b.toNat < a.toNat then false
    else charListLe as bs

/-- Model of Rust's `Ord`-based `≤` on `String`. -/
def strLe (a b : String) : Bool := charListLe a.data b.data

/-- The sort relation of `Vec::<String>::sort()`. -/
def valLe (a b : String) : Prop := strLe a b = true

instance : DecidableRel valLe := fun _a _b => inferInstanceAs (Decidable (_ = true))

/-- Key-wise comparison of stringified argument pairs, embedding the
source's `sort_by(|a, b| a.0.cmp(&b.0))`. -/
def keyLe (a b : String × String) : Prop := strLe a.1 b.1 = true

instance : DecidableRel keyLe := fun _a _b => inferInstanceAs (Decidable (_ = true))

/-- Embedding of `MCPBridge::tool_to_path` (lib.rs lines 178-238).  The
`HashMap<String, Value>` argument is represented by its entry list in some
iteration order; the method ignores `&self`.  Rust's stable sorts are
modelled by `List.insertionSort`, which agrees with them on every list
whose sort keys are pairwise distinct — for the `sort_by` on keys that is
exactly the `HashMap` key-uniqueness invariant, and the plain `sort` on
`Vec<String>` is order-insensitive between equal strings. -/
def tool_to_path (tool_name : String) (args : List (String × Json)) : String :=
  let tool_dir := "tools/" ++ tool_name
  if args.isEmpty then
    tool_dir ++ ".json"
  else if args.length = 1 then
    let arg_str := stringifyValue ((args.head?.map Prod.snd).getD .null)
    tool_dir ++ "/" ++ arg_str ++ ".json"
  else if args.length = 2 then
    let values :=
      List.insertionSort valLe (args.map fun kv => stringifyValue kv.2)
    tool_dir ++ "/" ++ values.getD 0 "" ++ "/" ++ values.getD 1 "" ++ ".json"
  else
    let sorted_args :=
      List.insertionSort keyLe (args.map fun kv => (kv.1, stringifyValue kv.2))
    let arg_string :=
      String.intercalate "&" (sorted_args.map fun kv => kv.1 ++ "=" ++ kv.2)
    let hash := String.mk ((base64Encode (utf8Bytes arg_string)).map b64PathSafe)
    tool_dir ++ "/" ++ hash ++ ".json"

example : tool_to_path "search" [] = "tools/search.json" := by decide
example : tool_to_path "search" [("q", .str "cats")] = "tools/search/cats.json" := by decide
example : tool_to_path "t" [("b", .str "y"), ("a", .str "x")] = "tools/t/x/y.json" := by decide

/-! ### Manifest, request/response envelopes, and the bridge -/

/-- Embedding of `ServerInfo`. -/
structure ServerInfo where
  name : String
  version : String

/-- Embedding of `Capabilities`: optional lists of opaque resource / tool
descriptors. -/
structure Capabilities where
  resources : Option (List Json)
  tools : Option (List Json)

/-- Embedding of `MCPManifest`. -/
structure MCPManifest where
  server_info : Option ServerInfo
  capabilities : Option Capabilities

/-- Embedding of `MCPRequest`. -/
structure MCPRequest where
  jsonrpc : String
  id : Option Json
  method : String
  params : Option Json

/-- Embedding of `MCPError`. -/
structure MCPError where
  code : Int
  message : String
  data : Option Json

/-- Embedding of `MCPResponse`. -/
structure MCPResponse where
  jsonrpc : String
  id : Option Json
  result : Option Json
  error : Option MCPError

/-- Embedding of `MCPBridge`: the `Box<dyn MCPDataSource>` trait object is
modelled by the outcome function of its `load_json` method (an
`anyhow::Result` is an `Except` with the error rendered to its message
text), and `manifest` is the optional loaded manifest. -/
structure MCPBridge where
  data_source : String → Except String Json
  manifest : Option MCPManifest

/-- Embedding of `MCPBridge::new`: construction starts with no manifest. -/
def MCPBridge.new (ds : String → Except String Json) : MCPBridge :=
  { data_source := ds, manifest := none }

/-- Embedding of `MCPBridge::initialize`.  `load_manifest` is an I/O call
on the data source; its outcome is passed in as a parameter.  On success
the manifest is stored; on failure the `?` operator propagates the error
and leaves the bridge untouched (no bridge value is produced). -/
def MCPBridge.init (b : MCPBridge) (loadManifest : Except String MCPManifest) :
    Except String MCPBridge :=
  match loadManifest with
  | .ok m => .ok { b with manifest := some m }
  | .error e => .error e

/-- Embedding of `MCPBridge::get_manifest`. -/
def MCPBridge.get_manifest (b : MCPBridge) : Option MCPManifest := b.manifest

/-- `params.get("uri").and_then(|u| u.as_str()).unwrap_or("")` from
`handle_read_resource`. -/
def paramUri (params : Json) : String :=
  ((params.getField "uri").bind Json.asStr).getD ""

/-- `params.get("name").and_then(|n| n.as_str()).unwrap_or("")` from
`handle_call_tool`. -/
def paramName (params : Json) : String :=
  ((params.getField "name").bind Json.asStr).getD ""

/-- `params.get("arguments").and_then(|a| a.as_object()).cloned()
.unwrap_or_default()` from `handle_call_tool`, collected into the
argument map (entry list). -/
def paramArgs (params : Json) : List (String × Json) :=
  ((params.getField "arguments").bind Json.asObj).getD []

/-- Embedding of `MCPBridge::handle_init` (the `&self` receiver is
unused by the source). -/
def handle_init (id : Option Json) : MCPResponse :=
  { jsonrpc := "2.0", id := id
    result := some (.obj
      [("protocolVersion", .str "2024-11-05"),
       ("capabilities", .obj [("resources", .obj []), ("tools", .obj [])]),
       ("serverInfo", .obj
         [("name", .str "sse-static-mcp-bridge"), ("version", .str "1.0.0")])])
    error := none }

/-- Embedding of `MCPBridge::handle_list_resources`. -/
def MCPBridge.handle_list_resources (b : MCPBridge) (id : Option Json) : MCPResponse :=
  match b.manifest with
  | some manifest =>
    let resources := (manifest.capabilities.bind Capabilities.resources).getD []
    { jsonrpc := "2.0", id := id
      result := some (.obj [("resources", .arr resources)]), error := none }
  | none =>
    { jsonrpc := "2.0", id := id, result := none
      error := some { code := -32603, message := "Manifest not loaded", data := none } }

/-- Embedding of `MCPBridge::handle_list_tools`. -/
def MCPBridge.handle_list_tools (b : MCPBridge) (id : Option Json) : MCPResponse :=
  match b.manifest with
  | some manifest =>
    let tools := (manifest.capabilities.bind Capabilities.tools).getD []
    { jsonrpc := "2.0", id := id
      result := some (.obj [("tools", .arr tools)]), error := none }
  | none =>
    { jsonrpc := "2.0", id := id, result := none
      error := some { code := -32603, message := "Manifest not loaded", data := none } }

/-- Embedding of `MCPBridge::handle_read_resource`. -/
def MCPBridge.handle_read_resource (b : MCPBridge) (id : Option Json) (params : Json) :
    MCPResponse :=
  let uri := paramUri params
  let resource_path := uri_to_path uri
  match b.data_source resource_path with
  | .ok resource =>
    let contents :=
      match resource.getField "contents" with
      | some contents => contents
      | none =>
        if ((resource.getField "uri").isSome && (resource.getField "mimeType").isSome
            && (resource.getField "text").isSome) then
          Json.arr [Json.obj
            [("uri", (resource.getField "uri").getD .null),
             ("mimeType", (resource.getField "mimeType").getD .null),
             ("text", (resource.getField "text").getD .null)]]
        else
          Json.arr [Json.obj
            [("uri", .str uri),
             ("mimeType", .str "application/json"),
             ("text", .str resource.pretty)]]
    { jsonrpc := "2.0", id := id
      result := some (.obj [("contents", contents)]), error := none }
  | .error e =>
    { jsonrpc := "2.0", id := id, result := none
      error := some
        { code := -32603
          message := "Failed to read resource " ++ uri ++ ": " ++ e
          data := none } }

/-- Embedding of `MCPBridge::handle_call_tool`. -/
def MCPBridge.handle_call_tool (b : MCPBridge) (id : Option Json) (params : Json) :
    MCPResponse :=
  let name := paramName params
  let args_map := paramArgs params
  let tool_path := tool_to_path name args_map
  match b.data_source tool_path with
  | .ok result =>
    let content :=
      if ((result.getField "content").isSome || (result.getField "contents").isSome) then
        result
      else
        Json.obj [("content", .arr
          [Json.obj [("type", .str "text"), ("text", .str result.pretty)]])]
    { jsonrpc := "2.0", id := id, result := some content, error := none }
  | .error e =>
    { jsonrpc := "2.0", id := id
      result := some (.obj
        [("content", .arr
           [Json.obj [("type", .str "text"),
                      ("text", .str ("Error calling " ++ name ++ ": " ++ e))]]),
         ("isError", .bool true)])
      error := none }

/-- Embedding of `MCPBridge::handle_request`: dispatch on the method
string; absent `params` defaults to `json!({})`. -/
def MCPBridge.handle_request (b : MCPBridge) (request : MCPRequest) : MCPResponse :=
  if request.method = "initialize" then
    handle_init request.id
  else if request.method = "resources/list" then
    b.handle_list_resources request.id
  else if request.method = "resources/read" then
    b.handle_read_resource request.id (request.params.getD (.obj []))
  else if request.method = "tools/list" then
    b.handle_list_tools request.id
  else if request.method = "tools/call" then
    b.handle_call_tool request.id (request.params.getD (.obj []))
  else
    { jsonrpc := "2.0", id := request.id, result := none
      error := some { code := -32601, message := "Method not found", data := none } }

/-! ### The serving-phase operations

After construction both binaries wrap the bridge so that only
shared-reference methods remain callable (`Arc<MCPBridge>` in the fixed
binary; the dynamic binary drops the bridge after one request).  These are
the operations available during serving; each borrows `&self`, so applying
one returns the bridge unchanged while its output is computed. -/

inductive ServeOp where
  | handleRequest (request : MCPRequest) : ServeOp
  | getManifest : ServeOp
  | uriToPath (uri : String) : ServeOp
  | toolToPath (tool_name : String) (args : List (String × Json)) : ServeOp

/-- Effect of one serving-phase operation on the bridge state. -/
def MCPBridge.applyServe (b : MCPBridge) : ServeOp → MCPBridge
  | .handleRequest req => let _ := b.handle_request req; b
  | .getManifest => let _ := b.get_manifest; b
  | .uriToPath uri => let _ := uri_to_path uri; b
  | .toolToPath tool_name args => let _ := tool_to_path tool_name args; b

/-- Effect of a whole sequence of serving-phase operations. -/
def MCPBridge.applyServeOps (b : MCPBridge) (ops : List ServeOp) : MCPBridge :=
  ops.foldl MCPBridge.applyServe b

theorem applyServe_eq (b : MCPBridge) (op : ServeOp) : b.applyServe op = b := by
  cases op <;> rfl

theorem applyServeOps_eq (b : MCPBridge) (ops : List ServeOp) :
    b.applyServeOps ops = b := by
  induction ops generalizing b with
  | nil => rfl
  | cons op ops ih => simpa [MCPBridge.applyServeOps, applyServe_eq] using ih b

/-- A data source whose every load fails, used to instantiate witnesses. -/
def dsErr : String → Except String Json := fun _ => .error "io error"

/-! ### Claims -/

/-- C3: the bridge is a two-state machine.  Construction starts
Uninitialized (`manifest = none`); a successful one-shot `initialize`
moves it to Ready with the loaded manifest, a failed one changes nothing;
during serving every available operation leaves the manifest untouched, so
a bridge initialized with manifest `m` still holds `m` after any sequence
of serving operations — in particular there is no transition back to
Uninitialized and no re-initialization path. -/
theorem bridge_two_state_machine :
    (∀ ds, (MCPBridge.new ds).manifest = none)
    ∧ (∀ (b : MCPBridge) (m : MCPManifest),
        b.init (.ok m) = .ok { b with manifest := some m })
    ∧ (∀ (b : MCPBridge) (e : String), b.init (.error e) = .error e)
    ∧ (∀ (b : MCPBridge) ops, (b.applyServeOps ops).manifest = b.manifest)
    ∧ (∀ ds m b' ops, (MCPBridge.new ds).init (.ok m) = .ok b' →
        (b'.applyServeOps ops).manifest = some m) := by
  refine ⟨fun _ => rfl, fun _ _ => rfl, fun _ _ => rfl,
    fun b ops => by rw [applyServeOps_eq], fun ds m b' ops h => ?_⟩
  cases h
  rw [applyServeOps_eq]

theorem bridge_two_state_machine_witness :
    ((MCPBridge.mk dsErr (some ⟨none, none⟩)).applyServeOps
        [ServeOp.getManifest,
         ServeOp.handleRequest ⟨"2.0", none, "tools/list", none⟩]).manifest
      = some ⟨none, none⟩ :=
  bridge_two_state_machine.2.2.2.2 dsErr ⟨none, none⟩ _ _ rfl

/-- C9: any request whose method is none of the five known ones yields a
`-32601` "Method not found" error, with the request id echoed verbatim
(absent ids included). -/
theorem handle_request_unknown_method (b : MCPBridge) (req : MCPRequest)
    (h1 : req.method ≠ "initialize") (h2 : req.method ≠ "resources/list")
    (h3 : req.method ≠ "resources/read") (h4 : req.method ≠ "tools/list")
    (h5 : req.method ≠ "tools/call") :
    b.handle_request req =
      { jsonrpc := "2.0", id := req.id, result := none
        error := some { code := -32601, message := "Method not found", data := none } } := by
  unfold MCPBridge.handle_request
  simp [h1, h2, h3, h4, h5]

theorem handle_request_unknown_method_witness :
    (MCPBridge.new dsErr).handle_request ⟨"2.0", none, "ping", none⟩ =
      { jsonrpc := "2.0", id := none, result := none
        error := some { code := -32601, message := "Method not found", data := none } } :=
  handle_request_unknown_method _ _ (by decide) (by decide) (by decide) (by decide)
    (by decide)

/-- C10: a `resources/list` (resp. `tools/list`) request handled without a
loaded manifest yields error `-32603` "Manifest not loaded" and no result;
with a loaded manifest it yields the manifest's resource (resp. tool)
descriptor list — empty when the manifest omits it — and no error. -/
theorem handle_request_list (b : MCPBridge) (req : MCPRequest) :
    (req.method = "resources/list" →
      b.handle_request req =
        match b.manifest with
        | none =>
          { jsonrpc := "2.0", id := req.id, result := none
            error := some { code := -32603, message := "Manifest not loaded", data := none } }
        | some m =>
          { jsonrpc := "2.0", id := req.id
            result := some (.obj
              [("resources", .arr ((m.capabilities.bind Capabilities.resources).getD []))])
            error := none })
    ∧ (req.method = "tools/list" →
      b.handle_request req =
        match b.manifest with
        | none =>
          { jsonrpc := "2.0", id := req.id, result := none
            error := some { code := -32603, message := "Manifest not loaded", data := none } }
        | some m =>
          { jsonrpc := "2.0", id := req.id
            result := some (.obj
              [("tools", .arr ((m.capabilities.bind Capabilities.tools).getD []))])
            error := none }) := by
  constructor <;> intro h <;> unfold MCPBridge.handle_request <;> simp [h] <;>
    cases hm : b.manifest <;>
    simp [MCPBridge.handle_list_resources, MCPBridge.handle_list_tools, hm]

theorem handle_request_list_witness :
    ((MCPBridge.new dsErr).handle_request ⟨"2.0", none, "resources/list", none⟩ =
      { jsonrpc := "2.0", id := none, result := none
        error := some { code := -32603, message := "Manifest not loaded", data := none } })
    ∧ ((MCPBridge.mk dsErr
          (some ⟨none, some ⟨none, some [.str "t1"]⟩⟩)).handle_request
            ⟨"2.0", some (.num 7), "tools/list", none⟩ =
      { jsonrpc := "2.0", id := some (.num 7)
        result := some (.obj [("tools", .arr [.str "t1"])]), error := none }) :=
  ⟨(handle_request_list _ _).1 rfl, (handle_request_list _ _).2 rfl⟩

/-- C1: when the data-source load fails, a `resources/read` request yields
a JSON-RPC error `-32603` whose message embeds the requested URI and the
failure text, while a `tools/call` request instead yields a successful
result (no error field) whose content is a single text block stating the
error, plus an `isError: true` flag. -/
theorem handle_request_load_failure (b : MCPBridge) (req : MCPRequest) (e : String) :
    (req.method = "resources/read" →
      b.data_source (uri_to_path (paramUri (req.params.getD (.obj [])))) = .error e →
      b.handle_request req =
        { jsonrpc := "2.0", id := req.id, result := none
          error := some
            { code := -32603
              message := "Failed to read resource " ++
                paramUri (req.params.getD (.obj [])) ++ ": " ++ e
              data := none } })
    ∧ (req.method = "tools/call" →
      b.data_source (tool_to_path (paramName (req.params.getD (.obj [])))
          (paramArgs (req.params.getD (.obj [])))) = .error e →
      b.handle_request req =
        { jsonrpc := "2.0", id := req.id
          result := some (.obj
            [("content", .arr
               [Json.obj [("type", .str "text"),
                  ("text", .str ("Error calling " ++
                    paramName (req.params.getD (.obj [])) ++ ": " ++ e))]]),
             ("isError", .bool true)])
          error := none }) := by
  constructor <;> intro h hload <;> unfold MCPBridge.handle_request <;> simp [h] <;>
    simp [MCPBridge.handle_read_resource, MCPBridge.handle_call_tool, hload]

theorem handle_request_load_failure_witness :
    ((MCPBridge.new dsErr).handle_request ⟨"2.0", some (.num 1), "resources/read", none⟩ =
      { jsonrpc := "2.0", id := some (.num 1), result := none
        error := some
          { code := -32603, message := "Failed to read resource : io error"
            data := none } })
    ∧ ((MCPBridge.new dsErr).handle_request ⟨"2.0", none, "tools/call", none⟩ =
      { jsonrpc := "2.0", id := none
        result := some (.obj
          [("content", .arr
             [Json.obj [("type", .str "text"),
                ("text", .str "Error calling : io error")]]),
           ("isError", .bool true)])
        error := none }) :=
  ⟨(handle_request_load_failure (MCPBridge.new dsErr) _ "io error").1 rfl rfl,
   (handle_request_load_failure (MCPBridge.new dsErr) _ "io error").2 rfl rfl⟩

/-- C6: when a `resources/read` load succeeds, the result is
`{contents: C}` where, in priority order, `C` is the document's
`contents` field passed through unchanged; else the single-element list
built verbatim from the document's `uri`, `mimeType` and `text` fields
when all three are present; else a synthesized single-element list with
the requested URI, mime type `application/json`, and the pretty-printed
document as text. -/
theorem handle_request_read_resource_ok (b : MCPBridge) (req : MCPRequest) (doc : Json)
    (hm : req.method = "resources/read")
    (hload : b.data_source (uri_to_path (paramUri (req.params.getD (.obj [])))) = .ok doc) :
    b.handle_request req =
      { jsonrpc := "2.0", id := req.id
        result := some (.obj [("contents",
          match doc.getField "contents" with
          | some c => c
          | none =>
            if ((doc.getField "uri").isSome && (doc.getField "mimeType").isSome
                && (doc.getField "text").isSome) then
              Json.arr [Json.obj
                [("uri", (doc.getField "uri").getD .null),
                 ("mimeType", (doc.getField "mimeType").getD .null),
                 ("text", (doc.getField "text").getD .null)]]
            else
              Json.arr [Json.obj
                [("uri", .str (paramUri (req.params.getD (.obj [])))),
                 ("mimeType", .str "application/json"),
                 ("text", .str doc.pretty)]])])
        error := none } := by
  unfold MCPBridge.handle_request
  simp [hm]
  simp [MCPBridge.handle_read_resource, hload]

theorem handle_request_read_resource_ok_witness :
    ((MCPBridge.new fun _ => .ok (.obj [("contents", .str "C")])).handle_request
        ⟨"2.0", none, "resources/read", none⟩ =
      { jsonrpc := "2.0", id := none
        result := some (.obj [("contents", .str "C")]), error := none })
    ∧ ((MCPBridge.new fun _ => .ok (.obj
          [("uri", .str "u"), ("mimeType", .str "m"), ("text", .str "t")])).handle_request
        ⟨"2.0", none, "resources/read", none⟩ =
      { jsonrpc := "2.0", id := none
        result := some (.obj [("contents", .arr [.obj
          [("uri", .str "u"), ("mimeType", .str "m"), ("text", .str "t")]])])
        error := none })
    ∧ ((MCPBridge.new fun _ => .ok (.bool true)).handle_request
        ⟨"2.0", none, "resources/read",
         some (.obj [("uri", .str "file://d")])⟩ =
      { jsonrpc := "2.0", id := none
        result := some (.obj [("contents", .arr [.obj
          [("uri", .str "file://d"), ("mimeType", .str "application/json"),
           ("text", .str "true")]])])
        error := none }) :=
  ⟨handle_request_read_resource_ok _ _ (.obj [("contents", .str "C")]) rfl rfl,
   handle_request_read_resource_ok _ _ (.obj
     [("uri", .str "u"), ("mimeType", .str "m"), ("text", .str "t")]) rfl rfl,
   handle_request_read_resource_ok _ _ (.bool true) rfl rfl⟩

/-- C7: when a `tools/call` load succeeds, a document with a `content` or
`contents` field is passed through unchanged as the result; otherwise the
result is `{content: [{type: "text", text: <pretty-printed document>}]}`. -/
theorem handle_request_call_tool_ok (b : MCPBridge) (req : MCPRequest) (doc : Json)
    (hm : req.method = "tools/call")
    (hload : b.data_source (tool_to_path (paramName (req.params.getD (.obj [])))
        (paramArgs (req.params.getD (.obj [])))) = .ok doc) :
    b.handle_request req =
      { jsonrpc := "2.0", id := req.id
        result := some
          (if ((doc.getField "content").isSome || (doc.getField "contents").isSome) then
            doc
          else
            Json.obj [("content", .arr
              [Json.obj [("type", .str "text"), ("text", .str doc.pretty)]])])
        error := none } := by
  unfold MCPBridge.handle_request
  simp [hm]
  simp [MCPBridge.handle_call_tool, hload]

theorem handle_request_call_tool_ok_witness :
    ((MCPBridge.new fun _ => .ok (.obj [("content", .arr []), ("x", .num 3)])).handle_request
        ⟨"2.0", none, "tools/call", none⟩ =
      { jsonrpc := "2.0", id := none
        result := some (.obj [("content", .arr []), ("x", .num 3)]), error := none })
    ∧ ((MCPBridge.new fun _ => .ok (.num 5)).handle_request
        ⟨"2.0", none, "tools/call", none⟩ =
      { jsonrpc := "2.0", id := none
        result := some (.obj [("content", .arr
          [.obj [("type", .str "text"), ("text", .str "5")]])])
        error := none }) :=
  ⟨handle_request_call_tool_ok _ _ (.obj [("content", .arr []), ("x", .num 3)]) rfl rfl,
   handle_request_call_tool_ok _ _ (.num 5) rfl rfl⟩

theorem envelope_list_resources (b : MCPBridge) (id : Option Json) :
    (b.handle_list_resources id).jsonrpc = "2.0"
    ∧ (b.handle_list_resources id).id = id
    ∧ ((b.handle_list_resources id).result.isSome
        ↔ (b.handle_list_resources id).error.isNone) := by
  simp only [MCPBridge.handle_list_resources]
  cases b.manifest <;> simp

theorem envelope_list_tools (b : MCPBridge) (id : Option Json) :
    (b.handle_list_tools id).jsonrpc = "2.0"
    ∧ (b.handle_list_tools id).id = id
    ∧ ((b.handle_list_tools id).result.isSome
        ↔ (b.handle_list_tools id).error.isNone) := by
  simp only [MCPBridge.handle_list_tools]
  cases b.manifest <;> simp

theorem envelope_read_resource (b : MCPBridge) (id : Option Json) (params : Json) :
    (b.handle_read_resource id params).jsonrpc = "2.0"
    ∧ (b.handle_read_resource id params).id = id
    ∧ ((b.handle_read_resource id params).result.isSome
        ↔ (b.handle_read_resource id params).error.isNone) := by
  simp only [MCPBridge.handle_read_resource]
  cases b.data_source (uri_to_path (paramUri params)) <;> simp

theorem envelope_call_tool (b : MCPBridge) (id : Option Json) (params : Json) :
    (b.handle_call_tool id params).jsonrpc = "2.0"
    ∧ (b.handle_call_tool id params).id = id
    ∧ ((b.handle_call_tool id params).result.isSome
        ↔ (b.handle_call_tool id params).error.isNone) := by
  simp only [MCPBridge.handle_call_tool]
  cases b.data_source (tool_to_path (paramName params) (paramArgs params)) <;> simp

/-- C8: every response carries `jsonrpc = "2.0"`, echoes the request id
verbatim (absent ids stay absent, never fabricated), and sets exactly one
of `result` and `error`. -/
theorem handle_request_envelope (b : MCPBridge) (req : MCPRequest) :
    (b.handle_request req).jsonrpc = "2.0"
    ∧ (b.handle_request req).id = req.id
    ∧ ((b.handle_request req).result.isSome
        ↔ (b.handle_request req).error.isNone) := by
  unfold MCPBridge.handle_request
  split_ifs
  · exact ⟨rfl, rfl, by simp [handle_init]⟩
  · exact envelope_list_resources b req.id
  · exact envelope_read_resource b req.id (req.params.getD (.obj []))
  · exact envelope_list_tools b req.id
  · exact envelope_call_tool b req.id (req.params.getD (.obj []))
  · exact ⟨rfl, rfl, by simp⟩

/-- C5: the path shape per argument count — no arguments, a single
stringified value, the two stringified values in lexicographic order, or
the path-safe Base64 of the `&`-joined key-sorted `key=value` query — and
the two concrete example mappings. -/
theorem tool_to_path_shape (name : String) (args : List (String × Json)) :
    (args = [] → tool_to_path name args = "tools/" ++ name ++ ".json")
    ∧ (∀ k v, args = [(k, v)] →
        tool_to_path name args =
          "tools/" ++ name ++ "/" ++ stringifyValue v ++ ".json")
    ∧ (∀ k1 v1 k2 v2, args = [(k1, v1), (k2, v2)] →
        tool_to_path name args =
          if strLe (stringifyValue v1) (stringifyValue v2) then
            "tools/" ++ name ++ "/" ++ stringifyValue v1 ++ "/" ++
              stringifyValue v2 ++ ".json"
          else
            "tools/" ++ name ++ "/" ++ stringifyValue v2 ++ "/" ++
              stringifyValue v1 ++ ".json")
    ∧ (3 ≤ args.length →
        tool_to_path name args =
          "tools/" ++ name ++ "/" ++
            String.mk ((base64Encode (utf8Bytes (String.intercalate "&"
              ((List.insertionSort keyLe
                  (args.map fun kv => (kv.1, stringifyValue kv.2))).map
                fun kv => kv.1 ++ "=" ++ kv.2)))).map b64PathSafe) ++ ".json")
    ∧ tool_to_path "search" [] = "tools/search.json"
    ∧ tool_to_path "search" [("q", .str "cats")] = "tools/search/cats.json" := by
  refine ⟨?_, ?_, ?_, ?_, by decide, by decide⟩
  · rintro rfl; rfl
  · rintro k v rfl; rfl
  · rintro k1 v1 k2 v2 rfl
    simp only [tool_to_path, List.isEmpty_cons, List.length_cons, List.length_nil,
      List.map_cons, List.map_nil, List.insertionSort, List.orderedInsert]
    by_cases h : strLe (stringifyValue v1) (stringifyValue v2) = true <;>
      simp [valLe, h]
  · intro h3
    rcases args with _ | ⟨a1, _ | ⟨a2, _ | ⟨a3, t⟩⟩⟩
    · simp at h3
    · simp at h3
    · simp at h3
    · rfl

/-- Number of occurrences of `sep` in `s`, fuel-driven like `splitFuel`. -/
def countOccsFuel (sep : List Char) : Nat → List Char → Nat
  | 0, _ => 0
  | fuel + 1, s =>
    match findSplit sep s with
    | none => 0
    | some (_, post) => countOccsFuel sep fuel post + 1

/-- Number of (left-to-right, non-overlapping) occurrences of `sep`. -/
def countOccs (sep s : List Char) : Nat := countOccsFuel sep (s.length + 1) s

/-- The §4.2 resolution rule stated in the spec's own terms, with step 2
amended as the code forces: a URI containing `://` (and not starting with
`file://`) is mapped to `resources/<after>.json` — `<after>` being the text
after the occurrence, even when empty — exactly when `://` occurs exactly
once; with several occurrences it falls back to `<uri>.json`. -/
def uri_to_path_spec (uri : String) : String :=
  if rustStartsWith uri "file://" then
    "resources/" ++ ((rustStripPre uri "file://").getD "") ++ ".json"
  else if rustContains uri "://" then
    match findSplit "://".data uri.data with
    | some (_, post) =>
      if countOccs "://".data uri.data = 1 then
        "resources/" ++ String.mk post ++ ".json"
      else
        uri ++ ".json"
    | none => uri ++ ".json"
  else if rustEndsWith uri ".json" then
    uri
  else
    uri ++ ".json"

theorem splitFuel_length (sep : List Char) :
    ∀ fuel s, (splitFuel sep fuel s).length = countOccsFuel sep fuel s + 1 := by
  intro fuel
  induction fuel with
  | zero => intro s; rfl
  | succ f ih =>
    intro s
    rcases h : findSplit sep s with _ | ⟨pre, post⟩ <;>
      simp [splitFuel, countOccsFuel, h, ih]

theorem splitFuel_of_count_zero (sep : List Char) :
    ∀ fuel s, countOccsFuel sep fuel s = 0 → splitFuel sep fuel s = [s] := by
  intro fuel s h
  cases fuel with
  | zero => rfl
  | succ f =>
    rcases hf : findSplit sep s with _ | ⟨pre, post⟩ <;>
      simp [splitFuel, countOccsFuel, hf] at h ⊢

theorem uri_to_path_eq_spec : ∀ uri, uri_to_path uri = uri_to_path_spec uri := by
  intro uri
  unfold uri_to_path uri_to_path_spec
  by_cases h1 : rustStartsWith uri "file://"
  · simp [h1]
  · simp only [h1, Bool.false_eq_true, if_false]
    rcases hf : findSplit "://".data uri.data with _ | ⟨pre, post⟩
    · have hc : rustContains uri "://" = false := by simp [rustContains, hf]
      simp [hc]
    · have hc : rustContains uri "://" = true := by simp [rustContains, hf]
      simp only [hc, if_true, hf]
      have hlen : (rustSplit uri "://").length = countOccs "://".data uri.data + 1 := by
        simp [rustSplit, countOccs, splitFuel_length]
      by_cases h2 : countOccs "://".data uri.data = 1
      · have h0 : countOccsFuel "://".data uri.data.length post = 0 := by
          have h2' := h2
          simp [countOccs, countOccsFuel, hf] at h2'
          exact h2'
        have hsplit : splitFuel "://".data (uri.data.length + 1) uri.data = [pre, post] := by
          simp only [splitFuel, hf]
          rw [splitFuel_of_count_zero _ _ _ h0]
        rw [hlen, if_pos (by omega), if_pos h2]
        simp only [rustSplit]
        rw [hsplit]
        rfl
      · rw [hlen, if_neg (by omega), if_neg h2]

/-- C2 fails on the code: Rust's `split("://")` splits on every
occurrence and the code demands exactly two parts, so a URI with two
`://` occurrences falls back to `<uri>.json` where the claim's
"split on the first `://`, non-empty remainder" rule demands
`resources/b://c.json`. -/
theorem uri_to_path_first_split_counterexample :
    uri_to_path "a://b://c" = "a://b://c.json"
    ∧ uri_to_path "a://b://c" ≠ "resources/b://c.json" :=
  ⟨by decide, by decide⟩

/-- C2 (amended): `uri_to_path` follows the four-step rule with step 2
read as the code implements it — split on every occurrence of `://`,
produce `resources/<after>.json` (even for an empty `<after>`) exactly
when the split yields two parts, else fall back to `<uri>.json` — and the
four §8 example mappings hold. -/
theorem uri_to_path_follows_spec :
    (∀ uri, uri_to_path uri = uri_to_path_spec uri)
    ∧ uri_to_path "file:///a/b" = "resources//a/b.json"
    ∧ uri_to_path "https://x.com/y" = "resources/x.com/y.json"
    ∧ uri_to_path "plain" = "plain.json"
    ∧ uri_to_path "already.json" = "already.json" :=
  ⟨uri_to_path_eq_spec, by decide, by decide, by decide, by decide⟩

theorem charListLe_cons_iff {x y : Char} {as bs : List Char} :
    charListLe (x :: as) (y :: bs) = true ↔
      x.toNat < y.toNat ∨ (x.toNat = y.toNat ∧ charListLe as bs = true) := by
  simp only [charListLe]
  by_cases h1 : x.toNat < y.toNat
  · simp [h1]
  · by_cases h2 : y.toNat < x.toNat <;> simp [h1, h2] <;> omega

theorem charListLe_total : ∀ a b : List Char,
    charListLe a b = true ∨ charListLe b a = true := by
  intro a
  induction a with
  | nil => intro b; left; rfl
  | cons x as ih =>
    intro b
    cases b with
    | nil => right; rfl
    | cons y bs =>
      rcases Nat.lt_trichotomy x.toNat y.toNat with h | h | h
      · exact .inl (charListLe_cons_iff.mpr (.inl h))
      · rcases ih bs with h' | h'
        · exact .inl (charListLe_cons_iff.mpr (.inr ⟨h, h'⟩))
        · exact .inr (charListLe_cons_iff.mpr (.inr ⟨h.symm, h'⟩))
      · exact .inr (charListLe_cons_iff.mpr (.inl h))

theorem charListLe_trans : ∀ a b c : List Char,
    charListLe a b = true → charListLe b c = true → charListLe a c = true := by
  intro a
  induction a with
  | nil => intro b c _ _; rfl
  | cons x as ih =>
    intro b c hab hbc
    cases b with
    | nil => simp [charListLe] at hab
    | cons y bs =>
      cases c with
      | nil => simp [charListLe] at hbc
      | cons z cs =>
        rcases charListLe_cons_iff.mp hab with h1 | ⟨h1, h1'⟩ <;>
          rcases charListLe_cons_iff.mp hbc with h2 | ⟨h2, h2'⟩
        · exact charListLe_cons_iff.mpr (.inl (by omega))
        · exact charListLe_cons_iff.mpr (.inl (by omega))
        · exact charListLe_cons_iff.mpr (.inl (by omega))
        · exact charListLe_cons_iff.mpr (.inr ⟨by omega, ih bs cs h1' h2'⟩)

theorem charListLe_antisymm : ∀ a b : List Char,
    charListLe a b = true → charListLe b a = true → a = b := by
  intro a
  induction a with
  | nil =>
    intro b _ hba
    cases b with
    | nil => rfl
    | cons y bs => simp [charListLe] at hba
  | cons x as ih =>
    intro b hab hba
    cases b with
    | nil => simp [charListLe] at hab
    | cons y bs =>
      rcases charListLe_cons_iff.mp hab with h1 | ⟨h1, h1'⟩ <;>
        rcases charListLe_cons_iff.mp hba with h2 | ⟨h2, h2'⟩
      · omega
      · omega
      · omega
      · have hxy : x = y := Char.ext (UInt32.ext h1)
        rw [hxy, ih bs h1' h2']

theorem strLe_antisymm (a b : String) (h1 : strLe a b = true)
    (h2 : strLe b a = true) : a = b := by
  cases a with | mk da =>
  cases b with | mk db =>
  exact congrArg String.mk (charListLe_antisymm da db h1 h2)

instance : IsTotal String valLe := ⟨fun a b => charListLe_total a.data b.data⟩

instance : IsTrans String valLe :=
  ⟨fun a b c hab hbc => charListLe_trans a.data b.data c.data hab hbc⟩

instance : IsAntisymm String valLe := ⟨fun a b hab hba => strLe_antisymm a b hab hba⟩

instance : IsTotal (String × String) keyLe :=
  ⟨fun a b => charListLe_total a.1.data b.1.data⟩

instance : IsTrans (String × String) keyLe :=
  ⟨fun a b c hab hbc => charListLe_trans a.1.data b.1.data c.1.data hab hbc⟩

theorem insertionSort_perm_eq {α : Type} (r : α → α → Prop) [DecidableRel r]
    [IsTotal α r] [IsTrans α r] [IsAntisymm α r] {l₁ l₂ : List α} (h : l₁.Perm l₂) :
    List.insertionSort r l₁ = List.insertionSort r l₂ :=
  List.eq_of_perm_of_sorted
    ((List.perm_insertionSort r l₁).trans (h.trans (List.perm_insertionSort r l₂).symm))
    (List.sorted_insertionSort r l₁) (List.sorted_insertionSort r l₂)

/-- Two key-sorted pair lists that are permutations of one another and have
pairwise-distinct keys are equal — the reason the source's key-based
`sort_by` yields a canonical query string for `HashMap` contents. -/
theorem sorted_key_unique :
    ∀ l₁ l₂ : List (String × String), l₁.Perm l₂ → (l₁.map Prod.fst).Nodup →
      l₁.Sorted keyLe → l₂.Sorted keyLe → l₁ = l₂ := by
  intro l₁
  induction l₁ with
  | nil => intro l₂ hp _ _ _; exact (hp.symm.eq_nil).symm
  | cons x t ih =>
    intro l₂ hp hnd hs₁ hs₂
    cases l₂ with
    | nil => exact absurd hp.eq_nil (by simp)
    | cons y t₂ =>
      simp only [List.map_cons, List.nodup_cons] at hnd
      have hs₁' := List.sorted_cons.mp hs₁
      have hs₂' := List.sorted_cons.mp hs₂
      have hxy : x = y := by
        rcases List.mem_cons.mp (hp.subset (List.mem_cons_self x t)) with h | hxt₂
        · exact h
        rcases List.mem_cons.mp (hp.symm.subset (List.mem_cons_self y t₂)) with h | hyt
        · exact h.symm
        have hk : x.1 = y.1 := strLe_antisymm _ _ (hs₁'.1 y hyt) (hs₂'.1 x hxt₂)
        have : x.1 ∈ t.map Prod.fst := by
          rw [hk]; exact List.mem_map_of_mem Prod.fst hyt
        exact absurd this hnd.1
      subst hxy
      rw [ih t₂ hp.cons_inv hnd.2 hs₁'.2 hs₂'.2]

theorem tool_to_path_ge3 (name : String) (args : List (String × Json))
    (h : 3 ≤ args.length) :
    tool_to_path name args =
      "tools/" ++ name ++ "/" ++
        String.mk ((base64Encode (utf8Bytes (String.intercalate "&"
          ((List.insertionSort keyLe
              (args.map fun kv => (kv.1, stringifyValue kv.2))).map
            fun kv => kv.1 ++ "=" ++ kv.2)))).map b64PathSafe) ++ ".json" := by
  rcases args with _ | ⟨a1, _ | ⟨a2, _ | ⟨a3, t⟩⟩⟩
  · simp at h
  · simp at h
  · simp at h
  · rfl

theorem tool_to_path_two_eq (name : String) (x1 x2 : String × Json) :
    tool_to_path name [x1, x2] =
      "tools/" ++ name ++ "/" ++
        ((List.insertionSort valLe
          ([x1, x2].map fun kv => stringifyValue kv.2)).getD 0 "") ++ "/" ++
        ((List.insertionSort valLe
          ([x1, x2].map fun kv => stringifyValue kv.2)).getD 1 "") ++ ".json" := rfl

/-- C4: `tool_to_path` is a pure total function of `(name, arguments)`:
permuting the entry list of the argument map (whose keys are distinct, the
`HashMap` invariant) never changes the path, and any two 2-entry maps whose
multisets of stringified values agree — key names notwithstanding — map to
the same path. -/
theorem tool_to_path_deterministic (name : String) (a b : List (String × Json)) :
    (a.Perm b → (a.map Prod.fst).Nodup → tool_to_path name a = tool_to_path name b)
    ∧ (a.length = 2 → b.length = 2 →
        (a.map fun kv => stringifyValue kv.2).Perm
          (b.map fun kv => stringifyValue kv.2) →
        tool_to_path name a = tool_to_path name b) := by
  have two_case : ∀ a b : List (String × Json), a.length = 2 → b.length = 2 →
      (a.map fun kv => stringifyValue kv.2).Perm
        (b.map fun kv => stringifyValue kv.2) →
      tool_to_path name a = tool_to_path name b := by
    intro a b ha hb hperm
    obtain ⟨x1, x2, rfl⟩ := List.length_eq_two.mp ha
    obtain ⟨y1, y2, rfl⟩ := List.length_eq_two.mp hb
    rw [tool_to_path_two_eq, tool_to_path_two_eq, insertionSort_perm_eq valLe hperm]
  refine ⟨?_, fun ha hb hperm => two_case a b ha hb hperm⟩
  intro hp hnd
  rcases a with _ | ⟨x, _ | ⟨x2, t⟩⟩
  · rw [hp.symm.eq_nil]
  · rw [List.perm_singleton.mp hp.symm]
  · cases t with
    | nil =>
      exact two_case _ b (by simp) (by rw [← hp.length_eq]; simp) (hp.map _)
    | cons z t' =>
      have h3a : 3 ≤ (x :: x2 :: z :: t').length := by simp
      have h3b : 3 ≤ b.length := hp.length_eq ▸ h3a
      rw [tool_to_path_ge3 _ _ h3a, tool_to_path_ge3 _ _ h3b]
      have hmp : ((x :: x2 :: z :: t').map fun kv => (kv.1, stringifyValue kv.2)).Perm
          (b.map fun kv => (kv.1, stringifyValue kv.2)) := hp.map _
      have hnd' : ((((x :: x2 :: z :: t').map
          fun kv => (kv.1, stringifyValue kv.2))).map Prod.fst).Nodup := by
        rw [List.map_map]; exact hnd
      have hnds : (((List.insertionSort keyLe ((x :: x2 :: z :: t').map
          fun kv => (kv.1, stringifyValue kv.2)))).map Prod.fst).Nodup :=
        (((List.perm_insertionSort keyLe _).map Prod.fst).nodup_iff).mpr hnd'
      rw [sorted_key_unique _ _
        ((List.perm_insertionSort keyLe _).trans
          (hmp.trans (List.perm_insertionSort keyLe _).symm))
        hnds (List.sorted_insertionSort keyLe _) (List.sorted_insertionSort keyLe _)]

theorem tool_to_path_deterministic_witness :
    (tool_to_path "t" [("a", Json.str "x"), ("b", .num 2), ("c", .bool true)] =
      tool_to_path "t" [("b", .num 2), ("a", .str "x"), ("c", .bool true)])
    ∧ (tool_to_path "t" [("k1", Json.str "u"), ("k2", .str "v")] =
      tool_to_path "t" [("other", .str "v"), ("names", .str "u")]) :=
  ⟨(tool_to_path_deterministic "t" _ _).1
      (List.Perm.swap _ _ _) (by decide),
   (tool_to_path_deterministic "t" _ _).2 rfl rfl (by decide)⟩

theorem tool_to_path_shape_witness :
    tool_to_path "search" [("q", Json.str "cats")] = "tools/search/cats.json"
    ∧ tool_to_path "m" [("a", .num 1), ("b", .num 2), ("c", .num 3)] =
        "tools/m/YT0xJmI9MiZjPTM_.json" :=
  ⟨(tool_to_path_shape "search" _).2.1 "q" (.str "cats") rfl,
   ((tool_to_path_shape "m" _).2.2.2.1 (by decide)).trans (by decide)⟩

end StaticMCP
